import Mathlib

/-!
Shallow embedding of the pistlar content loader (`app/content_loader.py`) and the
store-facing parts of `app/app.py`, together with proofs about the claims of the
specification.  Python strings are modelled as Lean `String`/`List Char`,
machine-level values as `Nat`/`Int`, raised exceptions as `Option`/`Except`.
-/

namespace Pistlar

/-! ## Character classes (Python `re` and `str` semantics, ASCII range) -/

/-- Lowercase ASCII letter `a`-`z`. -/
def isLowerAlpha (c : Char) : Bool := 97 ≤ c.toNat && c.toNat ≤ 122

/-- Uppercase ASCII letter `A`-`Z`. -/
def isUpperAlpha (c : Char) : Bool := 65 ≤ c.toNat && c.toNat ≤ 90

/-- ASCII digit `0`-`9`. -/
def isDigitChar (c : Char) : Bool := 48 ≤ c.toNat && c.toNat ≤ 57

/-- Characters of the ASCII range matched by Python's `\s` regex class and stripped
by `str.strip()`: space, `\t`, `\n`, `\v`, `\f`, `\r` and the file/group/record/unit
separators `\x1c`-`\x1f` (all of which satisfy `str.isspace`). -/
def isPySpace (c : Char) : Bool :=
  c.toNat = 32 || c.toNat = 9 || c.toNat = 10 || c.toNat = 11 || c.toNat = 12 ||
    c.toNat = 13 || c.toNat = 28 || c.toNat = 29 || c.toNat = 30 || c.toNat = 31

/-- Character class kept by the substitution `re.sub(r"[^a-zA-Z0-9\-\s]", "", value)`
in `slugify`: ASCII letters, digits, the hyphen (code 45) and whitespace. -/
def isKeepChar (c : Char) : Bool :=
  isLowerAlpha c || isUpperAlpha c || isDigitChar c || c.toNat = 45 || isPySpace c

/-- Character class matched by `re.sub(r"[\s\_]+", "-", value)` in `slugify`:
whitespace or underscore (code 95). -/
def isWsOrUnderscore (c : Char) : Bool := isPySpace c || c.toNat = 95

/-- Characters that may appear in a slug produced by `slugify`: lowercase ASCII
alphanumerics and the hyphen. -/
def isSlugChar (c : Char) : Bool := isLowerAlpha c || isDigitChar c || c.toNat = 45

/-! ## `slugify` (content_loader.py lines 14-18) -/

/-- Model of `unicodedata.normalize("NFKD", value).encode("ascii", "ignore")` applied
to one character.  Every ASCII character is NFKD-invariant and survives the ASCII
encode, so it maps to itself; a non-ASCII character decomposes by the Unicode NFKD
tables and any non-ASCII remnant is dropped by `errors="ignore"` (a representative
sample of the decomposition table is included; the claims about `slugify` do not
depend on the exact table entries for non-ASCII input). -/
def nfkdAsciiChar (c : Char) : List Char :=
  if c.toNat < 128 then [c]
  else if c = 'á' then ['a']
  else if c = 'é' then ['e']
  else if c = 'í' then ['i']
  else if c = 'ó' then ['o']
  else if c = 'ú' then ['u']
  else if c = 'ñ' then ['n']
  else if c = 'ö' then ['o']
  else []

/-- Model of `str.strip()`: remove leading and trailing whitespace. -/
def pyStrip (l : List Char) : List Char :=
  ((l.dropWhile isPySpace).reverse.dropWhile isPySpace).reverse

/-- Model of `str.lower()` on the ASCII strings reaching this stage of `slugify`
(the preceding ASCII encode guarantees the input is ASCII): map `A`-`Z` to
`a`-`z`, leave everything else unchanged. -/
def pyLowerChar (c : Char) : Char :=
  if 65 ≤ c.toNat ∧ c.toNat ≤ 90 then Char.ofNat (c.toNat + 32) else c

/-- Model of `re.sub(r"[\s\_]+", "-", value)`: replace every maximal run of
whitespace/underscore characters by a single hyphen. -/
def collapseWs : List Char → List Char
  | [] => []
  | [c] => if isWsOrUnderscore c then ['-'] else [c]
  | c :: d :: rest =>
    if isWsOrUnderscore c then
      if isWsOrUnderscore d then collapseWs (d :: rest)
      else '-' :: collapseWs (d :: rest)
    else c :: collapseWs (d :: rest)

/-- Character-list level model of `slugify` (content_loader.py lines 14-18):
NFKD-decompose and drop non-ASCII, delete characters outside
`[a-zA-Z0-9\-\s]`, strip, lowercase, then collapse whitespace/underscore runs
into single hyphens. -/
def slugifyChars (l : List Char) : List Char :=
  collapseWs ((pyStrip ((l.flatMap nfkdAsciiChar).filter isKeepChar)).map pyLowerChar)

/-- Model of `slugify` (content_loader.py lines 14-18). -/
def slugify (s : String) : String := String.mk (slugifyChars s.data)

/-! ## Datetimes (Python `datetime`, second resolution) -/

/-- Model of a Python `datetime.datetime` at second resolution: `secs` counts the
seconds from 1970-01-01 00:00:00 to the naive calendar field values of the object,
and `tz` is its UTC offset in seconds (`none` for a naive datetime). -/
structure PyDateTime where
  secs : Int
  tz : Option Int
deriving DecidableEq, Repr

/-- Count of days from 1970-01-01 to the civil date `y-m-d` (standard
days-from-civil algorithm; division truncates toward zero exactly as the
quantities involved are arranged to be non-negative). -/
def daysFromCivil (y m d : Int) : Int :=
  let y2 := if m ≤ 2 then y - 1 else y
  let era := (if 0 ≤ y2 then y2 else y2 - 399) / 400
  let yoe := y2 - era * 400
  let mp := if 2 < m then m - 3 else m + 9
  let doy := (153 * mp + 2) / 5 + d - 1
  let doe := yoe * 365 + yoe / 4 - yoe / 100 + doy
  era * 146097 + doe - 719468

/-- Gregorian leap-year test. -/
def isLeapYear (y : Nat) : Bool := (y % 4 == 0 && y % 100 != 0) || y % 400 == 0

/-- Number of days in month `m` of year `y`. -/
def daysInMonth (y m : Nat) : Nat :=
  if m = 2 then (if isLeapYear y then 29 else 28)
  else if m = 4 ∨ m = 6 ∨ m = 9 ∨ m = 11 then 30
  else 31

/-- Model of the `datetime.datetime(year, month, day, hour, minute, second, tz)`
constructor: `none` exactly when Python raises `ValueError` (a field out of range;
`MINYEAR` is 1 and `MAXYEAR` is 9999). -/
def mkDatetime (y mo d h mi s : Nat) (tz : Option Int) : Option PyDateTime :=
  if 1 ≤ y ∧ y ≤ 9999 ∧ 1 ≤ mo ∧ mo ≤ 12 ∧ 1 ≤ d ∧ d ≤ daysInMonth y mo
      ∧ h ≤ 23 ∧ mi ≤ 59 ∧ s ≤ 59 then
    some ⟨daysFromCivil y mo d * 86400 + h * 3600 + mi * 60 + s, tz⟩
  else none

/-- Argument of `_to_aware_utc`: a `datetime.datetime`, a `datetime.date`
(year/month/day of an already-validated date object), or any other value, which
the code passes through `str`. -/
inductive DateVal where
  | dt (d : PyDateTime)
  | date (y mo d : Nat)
  | str (s : String)
deriving DecidableEq, Repr

/-- Numeric value of an ASCII digit. -/
def digitVal (c : Char) : Option Nat :=
  if 48 ≤ c.toNat ∧ c.toNat ≤ 57 then some (c.toNat - 48) else none

/-- Parse exactly `n` ASCII digits from the front of the list, returning their value
and the remaining characters. -/
def parseNDigits : Nat → List Char → Option (Nat × List Char)
  | 0, l => some (0, l)
  | _ + 1, [] => none
  | n + 1, c :: l => do
    let d ← digitVal c
    let (rest, l2) ← parseNDigits n l
    pure (d * 10 ^ n + rest, l2)

/-- Consume one expected character. -/
def expectChar (c : Char) : List Char → Option (List Char)
  | x :: l => if x = c then some l else none
  | [] => none

/-- Parse `HH:MM` optionally followed by `:SS`. -/
def parseTimePart (l : List Char) : Option (Nat × Nat × Nat × List Char) := do
  let (h, l1) ← parseNDigits 2 l
  let l2 ← expectChar ':' l1
  let (mi, l3) ← parseNDigits 2 l2
  match l3 with
  | ':' :: l4 => do
    let (s, l5) ← parseNDigits 2 l4
    pure (h, mi, s, l5)
  | _ => pure (h, mi, 0, l3)

/-- Parse an optional `±HH:MM` UTC-offset suffix (offset in seconds). -/
def parseTz : List Char → Option (Option Int × List Char)
  | [] => some (none, [])
  | '+' :: l => do
    let (h, l1) ← parseNDigits 2 l
    let l2 ← expectChar ':' l1
    let (mi, l3) ← parseNDigits 2 l2
    pure (some ((h * 3600 + mi * 60 : Nat) : Int), l3)
  | '-' :: l => do
    let (h, l1) ← parseNDigits 2 l
    let l2 ← expectChar ':' l1
    let (mi, l3) ← parseNDigits 2 l2
    pure (some (-((h * 3600 + mi * 60 : Nat) : Int)), l3)
  | _ => none

/-- Model of `datetime.datetime.fromisoformat` on the shapes relevant here:
`YYYY-MM-DD` (accepted since Python 3.7, yielding a naive midnight datetime) and
`YYYY-MM-DD[T ]HH:MM[:SS][±HH:MM]`.  It validates calendar ranges and returns
`none` where Python raises `ValueError`. -/
def parseIso (s : String) : Option PyDateTime := do
  let (y, l1) ← parseNDigits 4 s.data
  let l2 ← expectChar '-' l1
  let (mo, l3) ← parseNDigits 2 l2
  let l4 ← expectChar '-' l3
  let (d, l5) ← parseNDigits 2 l4
  match l5 with
  | [] => mkDatetime y mo d 0 0 0 none
  | sep :: l6 =>
    if sep = 'T' ∨ sep = ' ' then do
      let (h, mi, s2, l7) ← parseTimePart l6
      let (tz, l8) ← parseTz l7
      if l8 = [] then mkDatetime y mo d h mi s2 tz else none
    else none

/-- Worker for `replaceSub`; the fuel argument (initially the length of the list)
only makes the recursion structural, every step consumes at least one character
and one unit of fuel. -/
def replaceSubAux (pat repl : List Char) : Nat → List Char → List Char
  | 0, l => l
  | _ + 1, [] => []
  | fuel + 1, c :: rest =>
    if pat ≠ [] ∧ pat.isPrefixOf (c :: rest) then
      repl ++ replaceSubAux pat repl fuel (rest.drop (pat.length - 1))
    else c :: replaceSubAux pat repl fuel rest

/-- Model of `str.replace(pat, repl)` for a non-empty pattern: replace every
(leftmost, non-overlapping) occurrence of `pat` by `repl`. -/
def replaceSub (pat repl l : List Char) : List Char :=
  replaceSubAux pat repl l.length l

/-- String preprocessing in `_to_aware_utc` (content_loader.py line 26):
`str(dt).strip().replace("Z", "+00:00").replace("+0000", "+00:00")`. -/
def preprocessDateStr (s : String) : String :=
  String.mk (replaceSub "+0000".data "+00:00".data
    (replaceSub "Z".data "+00:00".data (pyStrip s.data)))

/-- Model of the regex match `^(\d{4})-(\d{2})-(\d{2})$` of `_to_aware_utc`. -/
def matchYmd (s : String) : Option (Nat × Nat × Nat) := do
  let (y, l1) ← parseNDigits 4 s.data
  let l2 ← expectChar '-' l1
  let (mo, l3) ← parseNDigits 2 l2
  let l4 ← expectChar '-' l3
  let (d, l5) ← parseNDigits 2 l4
  if l5 = [] then pure (y, mo, d) else none

/-- Final timezone fixup of `_to_aware_utc` (content_loader.py lines 36-39): a
naive datetime is assumed UTC (`replace(tzinfo=utc)` keeps the calendar fields), a
zoned one is converted (`astimezone(utc)` shifts the instant by the offset). -/
def fixTz (dt : PyDateTime) : PyDateTime :=
  match dt.tz with
  | none => ⟨dt.secs, some 0⟩
  | some off => ⟨dt.secs - off, some 0⟩

/-- Model of `_to_aware_utc` (content_loader.py lines 20-40).  `now` is the naive
value of `datetime.datetime.now()`; the result is `none` exactly where the Python
function lets an exception escape (the `datetime` constructor in the regex branch
raising on an invalid calendar date). -/
def toAwareUtc (v : DateVal) (now : PyDateTime) : Option PyDateTime :=
  match v with
  | .dt d => some (fixTz d)
  | .date y mo d => some (fixTz ⟨daysFromCivil y mo d * 86400 + 43200, none⟩)
  | .str s =>
    let s2 := preprocessDateStr s
    match parseIso s2 with
    | some d => some (fixTz d)
    | none =>
      match matchYmd s2 with
      | some (y, mo, d) => (mkDatetime y mo d 12 0 0 none).map fixTz
      | none => some (fixTz now)

/-! ## SHA-256 (`hashlib.sha256(...).hexdigest()`, FIPS 180-4) -/

/-- Modulus of 32-bit words. -/
def M32 : Nat := 4294967296

/-- Rotate the 32-bit word `x` right by `n` bits. -/
def rotr32 (n x : Nat) : Nat := (x / 2 ^ n + x % 2 ^ n * 2 ^ (32 - n)) % M32

/-- Message-schedule sigma-0. -/
def schedSigma0 (x : Nat) : Nat := (rotr32 7 x) ^^^ (rotr32 18 x) ^^^ (x / 2 ^ 3)

/-- Message-schedule sigma-1. -/
def schedSigma1 (x : Nat) : Nat := (rotr32 17 x) ^^^ (rotr32 19 x) ^^^ (x / 2 ^ 10)

/-- Compression Sigma-0. -/
def compSigma0 (x : Nat) : Nat := (rotr32 2 x) ^^^ (rotr32 13 x) ^^^ (rotr32 22 x)

/-- Compression Sigma-1. -/
def compSigma1 (x : Nat) : Nat := (rotr32 6 x) ^^^ (rotr32 11 x) ^^^ (rotr32 25 x)

/-- Working state of the compression function (eight 32-bit words). -/
structure Sha2State where
  a : Nat
  b : Nat
  c : Nat
  d : Nat
  e : Nat
  f : Nat
  g : Nat
  h : Nat
deriving DecidableEq, Repr

/-- Initial hash value of SHA-256. -/
def sha256Init : Sha2State :=
  ⟨1779033703, 3144134277, 1013904242, 2773480762,
   1359893119, 2600822924, 528734635, 1541459225⟩

/-- Round constants of SHA-256. -/
def sha256K : List Nat :=
  [1116352408, 1899447441, 3049323471, 3921009573,
   961987163, 1508970993, 2453635748, 2870763221,
   3624381080, 310598401, 607225278, 1426881987,
   1925078388, 2162078206, 2614888103, 3248222580,
   3835390401, 4022224774, 264347078, 604807628,
   770255983, 1249150122, 1555081692, 1996064986,
   2554220882, 2821834349, 2952996808, 3210313671,
   3336571891, 3584528711, 113926993, 338241895,
   666307205, 773529912, 1294757372, 1396182291,
   1695183700, 1986661051, 2177026350, 2456956037,
   2730485921, 2820302411, 3259730800, 3345764771,
   3516065817, 3600352804, 4094571909, 275423344,
   430227734, 506948616, 659060556, 883997877,
   958139571, 1322822218, 1537002063, 1747873779,
   1955562222, 2024104815, 2227730452, 2361852424,
   2428436474, 2756734187, 3204031479, 3329325298]

/-- Group a byte list into big-endian 32-bit words. -/
def bytesToWords : List Nat → List Nat
  | a :: b :: c :: d :: rest => (((a * 256 + b) * 256 + c) * 256 + d) :: bytesToWords rest
  | _ => []

/-- Append the next word of the SHA-256 message schedule. -/
def scheduleStep (w : List Nat) : List Nat :=
  let n := w.length
  w ++ [(schedSigma1 (w.getD (n - 2) 0) + w.getD (n - 7) 0 + schedSigma0 (w.getD (n - 15) 0) +
    w.getD (n - 16) 0) % M32]

/-- Extend the sixteen block words to the full 64-entry schedule. -/
def fullSchedule (w : List Nat) : List Nat :=
  List.foldl (fun acc _ => scheduleStep acc) w (List.range 48)

/-- One round of the SHA-256 compression function; `kw` pairs the round constant
with the schedule word. -/
def compressStep (s : Sha2State) (kw : Nat × Nat) : Sha2State :=
  let ch := (s.e &&& s.f) ^^^ (((M32 - 1) ^^^ s.e) &&& s.g)
  let maj := (s.a &&& s.b) ^^^ (s.a &&& s.c) ^^^ (s.b &&& s.c)
  let t1 := (s.h + compSigma1 s.e + ch + kw.1 + kw.2) % M32
  let t2 := (compSigma0 s.a + maj) % M32
  ⟨(t1 + t2) % M32, s.a, s.b, s.c, (s.d + t1) % M32, s.e, s.f, s.g⟩

/-- Process one 64-byte block. -/
def compressBlock (hs : Sha2State) (block : List Nat) : Sha2State :=
  let w := fullSchedule (bytesToWords block)
  let t := List.foldl compressStep hs (sha256K.zip w)
  ⟨(hs.a + t.a) % M32, (hs.b + t.b) % M32, (hs.c + t.c) % M32, (hs.d + t.d) % M32,
   (hs.e + t.e) % M32, (hs.f + t.f) % M32, (hs.g + t.g) % M32, (hs.h + t.h) % M32⟩

/-- Worker for `chunks64`; the fuel argument (initially the list length) only
makes the recursion structural. -/
def chunksAux : Nat → List Nat → List (List Nat)
  | 0, _ => []
  | _ + 1, [] => []
  | fuel + 1, x :: rest => ((x :: rest).take 64) :: chunksAux fuel (rest.drop 63)

/-- Split a byte list into consecutive 64-byte blocks. -/
def chunks64 (l : List Nat) : List (List Nat) := chunksAux l.length l

/-- Big-endian 8-byte encoding of the 64-bit message bit length. -/
def lenBytes8 (n : Nat) : List Nat :=
  [n / 2 ^ 56 % 256, n / 2 ^ 48 % 256, n / 2 ^ 40 % 256, n / 2 ^ 32 % 256,
   n / 2 ^ 24 % 256, n / 2 ^ 16 % 256, n / 2 ^ 8 % 256, n % 256]

/-- SHA-256 padding: a `0x80` byte, zeros to 56 mod 64, then the bit length. -/
def sha256Pad (msg : List Nat) : List Nat :=
  msg ++ 128 :: List.replicate ((119 - msg.length % 64) % 64) 0 ++ lenBytes8 (8 * msg.length)

/-- The 256-bit digest value of a final state: the eight words concatenated
big-endian. -/
def digestOfState (t : Sha2State) : Nat :=
  ((((((t.a * M32 + t.b) * M32 + t.c) * M32 + t.d) * M32 + t.e) * M32 + t.f) * M32 +
    t.g) * M32 + t.h

/-- SHA-256 digest of a byte list, as the 256-bit natural number obtained by
concatenating the eight final state words big-endian. -/
def sha256Nat (msg : List Nat) : Nat :=
  digestOfState (List.foldl compressBlock sha256Init (chunks64 (sha256Pad msg)))

/-- UTF-8 encoding of one character (model of `str.encode("utf-8")`). -/
def utf8Bytes (c : Char) : List Nat :=
  let n := c.toNat
  if n < 128 then [n]
  else if n < 2048 then [192 + n / 64, 128 + n % 64]
  else if n < 65536 then [224 + n / 4096, 128 + n / 64 % 64, 128 + n % 64]
  else [240 + n / 262144, 128 + n / 4096 % 64, 128 + n / 64 % 64, 128 + n % 64]

/-- UTF-8 bytes of a string. -/
def strBytes (s : String) : List Nat := s.data.flatMap utf8Bytes

/-- Lowercase hexadecimal digit. -/
def hexChar (n : Nat) : Char := if n < 10 then Char.ofNat (48 + n) else Char.ofNat (87 + n)

/-- Fixed-width big-endian hexadecimal rendering (`digits` hex characters). -/
def natToHexAux : Nat → Nat → List Char
  | 0, _ => []
  | d + 1, n => natToHexAux d (n / 16) ++ [hexChar (n % 16)]

/-- Model of `hashlib.sha256(x.encode("utf-8")).hexdigest()`: the 64-character
lowercase hexadecimal digest. -/
def sha256hex (s : String) : String := String.mk (natToHexAux 64 (sha256Nat (strBytes s)))

/-! ## Fingerprint (content_loader.py lines 77-87) -/

/-- One file accepted by the directory scanner `_iter_post_files`: its path
relative to the posts root (`os.path.relpath`), the integer part of its
modification time (`int(st.st_mtime)`), its byte size (`st.st_size`), and its
text content, where `none` models a file whose read raises a genuine I/O error
(e.g. permission denied). -/
structure FileEntry where
  path : String
  mtime : Nat
  size : Nat
  content : Option String
deriving DecidableEq, Repr

/-- Per-file fingerprint record `f"{rel}:{int(st.st_mtime)}:{st.st_size}"`. -/
def fpRecord (f : FileEntry) : String :=
  f.path ++ ":" ++ toString f.mtime ++ ":" ++ toString f.size

/-- Model of `_calc_fingerprint_for_dir` (content_loader.py lines 77-87): build a
record per scanned file, sort the records lexicographically (`items.sort()`),
join with `"|"` and hash with SHA-256.  The file list is the sequence yielded by
`_iter_post_files`, in whatever order the directory walk produces it.
`fpPreimage` is the sorted, joined record string that gets hashed. -/
def fpPreimage (fs : List FileEntry) : String :=
  String.intercalate "|" (List.insertionSort (· ≤ ·) (fs.map fpRecord))

def calcFingerprint (fs : List FileEntry) : String := sha256hex (fpPreimage fs)

/-! ## HTML tokens and the bleach sanitizer (content_loader.py lines 7-8 and 169) -/

/-- One token of an HTML fragment: a run of text, or a single tag with its
attributes. -/
inductive HtmlTok where
  | text (s : String)
  | tag (closing : Bool) (name : String) (attrs : List (String × String))
deriving DecidableEq, Repr

/-- Index of the first occurrence of `pat` in a character list. -/
def findSub (pat : List Char) : List Char → Option Nat
  | [] => if pat = [] then some 0 else none
  | c :: rest =>
    if pat.isPrefixOf (c :: rest) then some 0 else (findSub pat rest).map (· + 1)

/-- Split a character list into space-separated words. -/
def splitWords : List Char → List (List Char)
  | [] => [[]]
  | c :: rest =>
    let ws := splitWords rest
    if c = ' ' then [] :: ws else (c :: ws.headD []) :: ws.tail

/-- Split a character list into lines at `\n`. -/
def splitLinesAux : List Char → List (List Char)
  | [] => [[]]
  | c :: rest =>
    let ls := splitLinesAux rest
    if c = '\n' then [] :: ls else (c :: ls.headD []) :: ls.tail

/-- Character allowed in a tag name (the HTML produced by this pipeline uses
lowercase names such as `p`, `h1`, `img`, `script`). -/
def isTagNameChar (c : Char) : Bool := isLowerAlpha c || isDigitChar c

/-- Parse one `key="value"` / `key=value` / bare `key` attribute word. -/
def parseAttrWord (w : List Char) : String × String :=
  let key := w.takeWhile (· ≠ '=')
  let rest := w.dropWhile (· ≠ '=')
  match rest with
  | '=' :: v =>
    let v2 := if v.headD ' ' = '"' then (v.drop 1).dropLast else v
    (String.mk key, String.mk v2)
  | _ => (String.mk key, "")

/-- Parse the characters between `<` and `>` into a tag token. -/
def parseTagChars (inside : List Char) : HtmlTok :=
  match inside with
  | '/' :: rest => .tag true (String.mk (rest.takeWhile isTagNameChar)) []
  | _ =>
    let inside2 := if inside.getLast? = some '/' then inside.dropLast else inside
    let name := inside2.takeWhile isTagNameChar
    let rest := inside2.dropWhile isTagNameChar
    .tag false (String.mk name)
      (((splitWords rest).filter (· ≠ [])).map parseAttrWord)

/-- Worker for `tokenizeHtml`; the fuel argument (initially the list length) only
makes the recursion structural, every step consumes at least one character. -/
def tokenizeHtmlAux : Nat → List Char → List HtmlTok
  | 0, _ => []
  | _ + 1, [] => []
  | fuel + 1, c :: rest =>
    if c = '<' then
      parseTagChars (rest.takeWhile (· ≠ '>')) ::
        tokenizeHtmlAux fuel ((rest.dropWhile (· ≠ '>')).drop 1)
    else
      HtmlTok.text (String.mk ((c :: rest).takeWhile (· ≠ '<'))) ::
        tokenizeHtmlAux fuel ((c :: rest).dropWhile (· ≠ '<'))

/-- Tokenize an HTML fragment into text runs and tags. -/
def tokenizeHtml (s : String) : List HtmlTok := tokenizeHtmlAux s.data.length s.data

/-- HTML-escape one character (`&`, `<`, `>`, `"`). -/
def escapeChar (c : Char) : List Char :=
  if c = '&' then "&amp;".data
  else if c = '<' then "&lt;".data
  else if c = '>' then "&gt;".data
  else if c = '"' then "&quot;".data
  else [c]

/-- HTML-escape a string. -/
def escapeHtml (s : String) : String := String.mk (s.data.flatMap escapeChar)

/-- The sanitizer tag allow-list (content_loader.py line 7):
`bleach.sanitizer.ALLOWED_TAGS` extended with the article elements. -/
def ALLOWED_TAGS : List String :=
  ["a", "abbr", "acronym", "b", "blockquote", "code", "em", "i", "li", "ol",
    "strong", "ul"] ++
  ["p", "img", "h1", "h2", "h3", "h4", "h5", "h6", "figure", "figcaption",
    "pre", "code", "blockquote"]

/-- The sanitizer attribute allow-list (content_loader.py line 8):
`bleach.sanitizer.ALLOWED_ATTRIBUTES` extended with the `img` attributes. -/
def allowedAttrsFor (t : String) : List String :=
  if t = "a" then ["href", "title"]
  else if t = "abbr" then ["title"]
  else if t = "acronym" then ["title"]
  else if t = "img" then ["src", "alt", "title", "loading"]
  else []

/-- Serialize one tag token back to HTML source. -/
def serializeTag (closing : Bool) (name : String) (attrs : List (String × String)) :
    String :=
  if closing then "</" ++ name ++ ">"
  else "<" ++ name ++ String.join (attrs.map (fun kv => " " ++ kv.1 ++ "=\"" ++ kv.2 ++ "\"")) ++ ">"

/-- Model of `bleach.clean` on one token.  A tag on the allow-list is kept with
its attributes filtered down to the allowed ones; a tag outside the allow-list is
dropped when `strip=True` and escaped into visible text when `strip=False` (the
call in `_load` passes `strip=False`); text runs are HTML-escaped. -/
def cleanTok (strip : Bool) : HtmlTok → List HtmlTok
  | .text s => [.text (escapeHtml s)]
  | .tag closing name attrs =>
    if ALLOWED_TAGS.contains name then
      [.tag closing name (attrs.filter (fun kv => (allowedAttrsFor name).contains kv.1))]
    else if strip then []
    else [.text (escapeHtml (serializeTag closing name attrs))]

/-- Serialize one cleaned token. -/
def serializeTok : HtmlTok → String
  | .text s => s
  | .tag closing name attrs => serializeTag closing name attrs

/-- Model of `bleach.clean(html, tags=ALLOWED_TAGS, attributes=ALLOWED_ATTRIBUTES,
strip=strip)` (content_loader.py line 169 calls it with `strip=False`). -/
def bleachClean (strip : Bool) (html : String) : String :=
  String.join (((tokenizeHtml html).flatMap (cleanTok strip)).map serializeTok)

/-! ## Markdown rendering (content_loader.py line 10 and 168) -/

/-- Model of the toc extension's heading-id slug (`markdown.extensions.toc`):
keep word characters, spaces and hyphens, lowercase, and replace spaces by the
separator `-`. -/
def tocSlug (s : String) : String :=
  String.mk
    (((s.data.filter (fun c =>
        isLowerAlpha c || isUpperAlpha c || isDigitChar c || c = ' ' || c = '-' ||
          c = '_')).map pyLowerChar).map (fun c => if c = ' ' then '-' else c))

/-- Worker splitting a character list into blocks at blank lines (`\n\n`); the
fuel argument (initially the list length) only makes the recursion structural. -/
def splitBlocksAux : Nat → List Char → List Char → List (List Char)
  | 0, acc, _ => [acc.reverse]
  | _ + 1, acc, [] => [acc.reverse]
  | fuel + 1, acc, '\n' :: '\n' :: rest => acc.reverse :: splitBlocksAux fuel [] rest
  | fuel + 1, acc, c :: rest => splitBlocksAux fuel (c :: acc) rest

/-- Render one markdown block: an ATX `# ` heading becomes `<h1>` with the toc
extension's generated `id` attribute, a block opening with `<` is a raw HTML
block passed through unchanged, anything else is wrapped in a paragraph.  This
models the behavior of `markdown.Markdown(extensions=[...]).convert` on the
block shapes exercised in this development. -/
def mdBlock (b : List Char) : String :=
  if b.take 2 = ['#', ' '] then
    "<h1 id=\"" ++ tocSlug (String.mk (b.drop 2)) ++ "\">" ++ String.mk (b.drop 2) ++ "</h1>"
  else if b.headD ' ' = '<' then String.mk b
  else "<p>" ++ String.mk b ++ "</p>"

/-- Model of `md.reset().convert(fm.content)` (content_loader.py line 168) on the
block shapes exercised in this development: split into blocks at blank lines,
render each, and join with newlines. -/
def mdConvert (s : String) : String :=
  String.intercalate "\n"
    (((splitBlocksAux s.data.length [] s.data).filter (· ≠ [])).map mdBlock)

/-- Model of `_first_paragraph_html` (content_loader.py lines 62-64): the first
(lazy) match of `<p[\s\S]*?</p>`, else the content up to the first `</p>`
inclusive, else the whole fragment.  The HTML reaching it from this pipeline is
lowercase, so the `re.IGNORECASE` flag has no further effect. -/
def firstParagraphHtml (rendered : String) : String :=
  let l := rendered.data
  match findSub "<p".data l with
  | some i =>
    match findSub "</p>".data (l.drop i) with
    | some j => String.mk ((l.drop i).take (j + 4))
    | none =>
      match findSub "</p>".data l with
      | some k => String.mk (l.take (k + 4))
      | none => rendered
  | none =>
    match findSub "</p>".data l with
    | some k => String.mk (l.take (k + 4))
    | none => rendered

/-! ## Documents and front-matter (content_loader.py lines 42-60 and 118-176) -/

/-- Model of the `Post` dataclass (content_loader.py lines 42-53).  The derived
`sort_index` field always equals `date` and is omitted. -/
structure Post where
  title : String
  slug : String
  date : PyDateTime
  summary_html : String
  html : String
  image : Option String
  source_path : String
deriving DecidableEq, Repr

/-- Front-matter metadata restricted to the keys the loader reads. -/
structure Metadata where
  title : Option String
  date : Option DateVal
  slug : Option String
  image : Option String
  img : Option String
  cover : Option String
  thumbnail : Option String
deriving DecidableEq, Repr

/-- Metadata with no keys set. -/
def Metadata.empty : Metadata := ⟨none, none, none, none, none, none, none⟩

/-- Parse one `key: value` metadata line. -/
def parseMetaLine (l : List Char) : Option (String × String) :=
  match findSub ": ".data l with
  | some i => some (String.mk (l.take i), String.mk (l.drop (i + 2)))
  | none => none

/-- YAML scalar interpretation of a metadata `date` value: a bare valid
`YYYY-MM-DD` scalar loads as a `datetime.date` object, a quoted one (or anything
else) as a string. -/
def metaDateVal (v : String) : DateVal :=
  if v.data.headD ' ' = '"' then .str (String.mk ((v.data.drop 1).dropLast))
  else
    match matchYmd v with
    | some (y, mo, d) =>
      if (mkDatetime y mo d 0 0 0 none).isSome then .date y mo d else .str v
    | none => .str v

/-- Strip surrounding double quotes from a YAML string scalar. -/
def metaStrVal (v : String) : String :=
  if v.data.headD ' ' = '"' then String.mk ((v.data.drop 1).dropLast) else v

/-- Record one parsed metadata key. -/
def applyMeta (m : Metadata) (kv : String × String) : Metadata :=
  if kv.1 = "title" then ⟨some (metaStrVal kv.2), m.date, m.slug, m.image, m.img, m.cover, m.thumbnail⟩
  else if kv.1 = "date" then ⟨m.title, some (metaDateVal kv.2), m.slug, m.image, m.img, m.cover, m.thumbnail⟩
  else if kv.1 = "slug" then ⟨m.title, m.date, some (metaStrVal kv.2), m.image, m.img, m.cover, m.thumbnail⟩
  else if kv.1 = "image" then ⟨m.title, m.date, m.slug, some (metaStrVal kv.2), m.img, m.cover, m.thumbnail⟩
  else if kv.1 = "img" then ⟨m.title, m.date, m.slug, m.image, some (metaStrVal kv.2), m.cover, m.thumbnail⟩
  else if kv.1 = "cover" then ⟨m.title, m.date, m.slug, m.image, m.img, some (metaStrVal kv.2), m.thumbnail⟩
  else if kv.1 = "thumbnail" then ⟨m.title, m.date, m.slug, m.image, m.img, m.cover, some (metaStrVal kv.2)⟩
  else m

/-- Model of `frontmatter.load`: a file that does not open with a `---` delimiter
line has empty metadata and its whole content as body; otherwise the lines up to
the closing `---` are `key: value` pairs.  A block that cannot be parsed that way
(or is never closed) is malformed: the library raises, modelled as `none`, and
`_load` falls back to raw content with empty metadata. -/
def fmParse (raw : String) : Option (Metadata × String) :=
  match splitLinesAux raw.data with
  | [] => some (Metadata.empty, raw)
  | first :: rest =>
    if first = "---".data then
      match rest.findIdx? (fun l => l = "---".data) with
      | some i =>
        match (rest.take i).mapM parseMetaLine with
        | some kvs =>
          some (kvs.foldl applyMeta Metadata.empty,
            String.intercalate "\n" ((rest.drop (i + 1)).map String.mk))
        | none => none
      | none => none
    else some (Metadata.empty, raw)

/-- Python string truthiness fallback `a or b` for an optional string field. -/
def pyOrStr : Option String → String → String
  | some s, dflt => if s = "" then dflt else s
  | none, dflt => dflt

/-- Keep an optional string only when it is truthy (non-empty). -/
def truthyStr : Option String → Option String
  | some s => if s = "" then none else some s
  | none => none

/-- List-based `startsWith`. -/
def startsWithL (s pat : String) : Bool := pat.data.isPrefixOf s.data

/-- Model of the inner `_normalize_image` helper (content_loader.py lines
140-163). -/
def normalizeImage (imageStr : String) (assetsUrlPrefix : String) : String :=
  let s0 := String.mk (pyStrip imageStr.data)
  let s1 := if s0.data.headD ' ' = ':' then String.mk (s0.data.drop 1) else s0
  if startsWithL s1 "http://" || startsWithL s1 "https://" || startsWithL s1 "data:" then s1
  else
    let s2 := String.mk (s1.data.dropWhile (· = '/'))
    if startsWithL s2 "assets/" then "/" ++ s2
    else if startsWithL s2 "img/" || startsWithL s2 "images/" then
      assetsUrlPrefix ++ "/" ++ s2
    else assetsUrlPrefix ++ "/img/posts/" ++ s2

/-- Model of `_parse_date_from_filename` (content_loader.py lines 55-60): `none`
when the `^(\d{4})-(\d{2})-(\d{2})-` prefix does not match; otherwise the result
of the `datetime` constructor at noon UTC (whose inner `none` is a raised
`ValueError` for an invalid calendar date). -/
def parseDateFromFilename (name : String) : Option (Option PyDateTime) := do
  let (y, l1) ← parseNDigits 4 name.data
  let l2 ← expectChar '-' l1
  let (mo, l3) ← parseNDigits 2 l2
  let l4 ← expectChar '-' l3
  let (d, l5) ← parseNDigits 2 l4
  let _ ← expectChar '-' l5
  pure (mkDatetime y mo d 12 0 0 (some 0))

/-- Model of `os.path.basename`. -/
def pyBasename (p : String) : String :=
  String.mk ((p.data.reverse.takeWhile (· ≠ '/')).reverse)

/-- Model of the stem part of `os.path.splitext`. -/
def splitextStem (name : String) : String :=
  let l := name.data
  match l.reverse.findIdx? (· = '.') with
  | some i => if i + 1 = l.length then name else String.mk (l.take (l.length - 1 - i))
  | none => name

/-- The render pipeline applied to one body (content_loader.py lines 168-169):
markdown conversion followed by `bleach.clean` with `strip=False`. -/
def renderBody (content : String) : String := bleachClean false (mdConvert content)

/-- Model of one iteration of the parsing loop of `ContentStore._load`
(content_loader.py lines 118-176): derive title, slug, date, image and the
rendered fragments for one file.  `none` models an exception escaping `_load`
(the `datetime` constructor raising in the date-from-filename or metadata-date
path). -/
def parseDoc (fpath raw : String) (now : PyDateTime) (assetsUrlPrefix : String) :
    Option Post :=
  let fname := pyBasename fpath
  let fm := (fmParse raw).getD (Metadata.empty, raw)
  let title := pyOrStr fm.1.title (splitextStem fname)
  let dateRes : Option PyDateTime :=
    match fm.1.date with
    | some dv => toAwareUtc dv now
    | none =>
      match parseDateFromFilename fname with
      | some r => r
      | none => some (fixTz now)
  dateRes.map (fun date =>
    let slug := pyOrStr fm.1.slug (slugify title)
    let image :=
      match truthyStr fm.1.image <|> truthyStr fm.1.img <|> truthyStr fm.1.cover <|>
          truthyStr fm.1.thumbnail with
      | some i => some (normalizeImage i assetsUrlPrefix)
      | none => none
    let html := renderBody fm.2
    ⟨title, slug, date, firstParagraphHtml html, html, image, fpath⟩)

/-! ## The content store (content_loader.py lines 90-198, app.py line 305) -/

/-- Descending-date order used to sort the cached collection: `p` comes before
`q` when `p`'s date is at least `q`'s.  All stored dates are UTC-aware, so
CPython compares them by instant, i.e. by `secs`. -/
def dateDescBefore (p q : Post) : Prop := q.date.secs ≤ p.date.secs

instance : DecidableRel dateDescBefore :=
  fun p q => inferInstanceAs (Decidable (q.date.secs ≤ p.date.secs))

instance : IsTotal Post dateDescBefore :=
  ⟨fun a b => Int.le_total b.date.secs a.date.secs⟩

instance : IsTrans Post dateDescBefore :=
  ⟨fun _ _ _ hab hbc => le_trans hbc hab⟩

/-- Model of `posts.sort(key=lambda p: p.date, reverse=True)` (content_loader.py
line 178): CPython's `list.sort` is stable also with `reverse=True` (equal keys
keep their scan order), which is exactly insertion sort with `dateDescBefore`. -/
def sortPostsDesc (posts : List Post) : List Post :=
  List.insertionSort dateDescBefore posts

/-- Cache state of a `ContentStore`: the `_fingerprint` and `_posts` fields. -/
structure StoreState where
  fingerprint : String
  posts : List Post
deriving DecidableEq, Repr

/-- State of a freshly constructed store (content_loader.py lines 94-95). -/
def initialStore : StoreState := ⟨"", []⟩

/-- Parse one scanned file: an unreadable file (`content = none`) raises its
I/O error (the bare `open` in the fallback branch re-raises after
`except Exception` consumed the raise from `frontmatter.load`); otherwise the
file body is parsed as a document. -/
def parseOne (now : PyDateTime) (assetsUrlPrefix : String) (f : FileEntry) :
    Option Post :=
  match f.content with
  | none => none
  | some raw => parseDoc f.path raw now assetsUrlPrefix

def parseAll (fs : List FileEntry) (now : PyDateTime) (assetsUrlPrefix : String) :
    Option (List Post) :=
  match fs with
  | [] => some []
  | f :: rest =>
    match parseOne now assetsUrlPrefix f with
    | none => none
    | some p =>
      match parseAll rest now assetsUrlPrefix with
      | none => none
      | some ps => some (p :: ps)

/-- Model of `ContentStore._load` (content_loader.py lines 100-186).  `dirExists`
is `os.path.isdir(self.posts_dir)`, `fs` the files yielded by `_iter_post_files`
in scan order.  The result is the new cache state together with the number of
files parsed by this call; `.error st` models an exception escaping `_load`
with the cache still in the state `st` it had on entry (the code assigns
`self._posts` and `self._fingerprint` only after the whole loop succeeds). -/
def loadStore (st : StoreState) (dirExists : Bool) (fs : List FileEntry)
    (now : PyDateTime) (assetsUrlPrefix : String) : Except StoreState (StoreState × Nat) :=
  let newFp := calcFingerprint fs
  if newFp = st.fingerprint ∧ st.posts ≠ [] then .ok (st, 0)
  else if dirExists then
    match parseAll fs now assetsUrlPrefix with
    | none => .error st
    | some posts => .ok (⟨newFp, sortPostsDesc posts⟩, fs.length)
  else .ok (⟨newFp, []⟩, 0)

/-- Model of `ContentStore.all_posts` (content_loader.py lines 189-191): trigger
the reload check, then return the cached collection (the returned `list(...)`
copy), the resulting state, and how many files this call parsed. -/
def allPosts (st : StoreState) (dirExists : Bool) (fs : List FileEntry)
    (now : PyDateTime) (assetsUrlPrefix : String) :
    Except StoreState (List Post × StoreState × Nat) :=
  (loadStore st dirExists fs now assetsUrlPrefix).map (fun r => (r.1.posts, r.1, r.2))

/-- Model of `ContentStore.by_slug` (content_loader.py lines 193-198): trigger
the reload check, then scan the cached (date-descending) collection for the
first post with the given slug, `none` being the not-found signal. -/
def bySlug (slug : String) (st : StoreState) (dirExists : Bool) (fs : List FileEntry)
    (now : PyDateTime) (assetsUrlPrefix : String) :
    Except StoreState (Option Post × StoreState × Nat) :=
  (loadStore st dirExists fs now assetsUrlPrefix).map
    (fun r => (r.1.posts.find? (fun p => p.slug == slug), r.1, r.2))

/-- Model of the cache invalidation the serving layer performs after writing a
document (`store._fingerprint = ""`, app.py line 305): reset the cached
fingerprint to the empty string, keeping the cached posts. -/
def invalidate (st : StoreState) : StoreState := ⟨"", st.posts⟩

/-- Directory state holding the single accepted file `a.md` of size 1 whose
integer mtime is `n`; two such states with different `n` differ in an accepted
file's modification time. -/
def mtimeState (n : Nat) : List FileEntry := [⟨"a.md", n, 1, some ""⟩]

end Pistlar


namespace Pistlar

/-! ### Character-level lemmas about the `slugify` pipeline -/

/-- Evaluation of `Char.ofNat` for ASCII codes. -/
theorem toNat_ofNat_small {n : Nat} (h : n < 128) : (Char.ofNat n).toNat = n := by
  have hv : n < 55296 ∨ 57343 < n ∧ n < 1114112 := Or.inl (by omega)
  simp only [Char.ofNat, dif_pos hv]
  simp [Char.ofNatAux, Char.toNat, UInt32.toNat]

/-- Every character of `collapseWs l` is a hyphen or a non-whitespace,
non-underscore character of `l`. -/
theorem mem_collapseWs : ∀ (l : List Char) (c : Char), c ∈ collapseWs l →
    c = '-' ∨ (c ∈ l ∧ isWsOrUnderscore c = false)
  | [], c, h => absurd h (by simp [collapseWs])
  | [d], c, h => by
    unfold collapseWs at h
    by_cases hw : isWsOrUnderscore d
    · simp [hw] at h
      exact Or.inl h
    · simp [hw] at h
      subst h
      exact Or.inr ⟨List.mem_singleton_self _, by simpa using hw⟩
  | a :: d :: rest, c, h => by
    unfold collapseWs at h
    by_cases ha : isWsOrUnderscore a
    · by_cases hd : isWsOrUnderscore d
      · simp only [ha, hd, if_true] at h
        rcases mem_collapseWs (d :: rest) c h with h1 | ⟨h2, h3⟩
        · exact Or.inl h1
        · exact Or.inr ⟨List.mem_cons_of_mem a h2, h3⟩
      · simp only [ha, hd, if_true, if_false, Bool.false_eq_true, List.mem_cons] at h
        rcases h with h1 | h1
        · exact Or.inl h1
        · rcases mem_collapseWs (d :: rest) c h1 with h2 | ⟨h3, h4⟩
          · exact Or.inl h2
          · exact Or.inr ⟨List.mem_cons_of_mem a h3, h4⟩
    · simp only [ha, if_false, Bool.false_eq_true, List.mem_cons] at h
      rcases h with h1 | h1
      · subst h1
        exact Or.inr ⟨List.mem_cons_self _ _, by simpa using ha⟩
      · rcases mem_collapseWs (d :: rest) c h1 with h2 | ⟨h3, h4⟩
        · exact Or.inl h2
        · exact Or.inr ⟨List.mem_cons_of_mem a h3, h4⟩

/-- `collapseWs` is the identity on lists without whitespace or underscores. -/
theorem collapseWs_id : ∀ (l : List Char), (∀ c ∈ l, isWsOrUnderscore c = false) →
    collapseWs l = l
  | [], _ => rfl
  | [d], h => by simp [collapseWs, h d (List.mem_singleton_self d)]
  | a :: d :: rest, h => by
    have ha := h a (List.mem_cons_self a _)
    have hrest : ∀ c ∈ d :: rest, isWsOrUnderscore c = false := fun c hc =>
      h c (List.mem_cons_of_mem a hc)
    simp [collapseWs, ha, collapseWs_id (d :: rest) hrest]

/-- `dropWhile` is the identity when no element satisfies the predicate. -/
theorem dropWhile_eq_self_of {p : Char → Bool} :
    ∀ {l : List Char}, (∀ c ∈ l, p c = false) → l.dropWhile p = l
  | [], _ => rfl
  | c :: rest, h => by simp [List.dropWhile_cons, h c (List.mem_cons_self c rest)]

/-- Characters of the stripped list come from the original list. -/
theorem mem_pyStrip {c : Char} {l : List Char} (h : c ∈ pyStrip l) : c ∈ l := by
  unfold pyStrip at h
  rw [List.mem_reverse] at h
  have h2 := (List.dropWhile_sublist _).mem h
  rw [List.mem_reverse] at h2
  exact (List.dropWhile_sublist _).mem h2

/-- `pyStrip` is the identity on whitespace-free lists. -/
theorem pyStrip_eq_self {l : List Char} (h : ∀ c ∈ l, isPySpace c = false) :
    pyStrip l = l := by
  unfold pyStrip
  rw [dropWhile_eq_self_of h]
  rw [dropWhile_eq_self_of (fun c hc => h c (List.mem_reverse.mp hc))]
  exact List.reverse_reverse l

end Pistlar

namespace Pistlar

/-- `pyLowerChar` fixes characters outside `A`-`Z`. -/
theorem pyLowerChar_fix {c : Char} (h : ¬(65 ≤ c.toNat ∧ c.toNat ≤ 90)) :
    pyLowerChar c = c := by
  simp [pyLowerChar, h]

/-- Every character produced by the `slugify` pipeline is a lowercase ASCII
alphanumeric or a hyphen. -/
theorem slugifyChars_mem (l : List Char) : ∀ c ∈ slugifyChars l, isSlugChar c = true := by
  intro c hc
  unfold slugifyChars at hc
  rcases mem_collapseWs _ c hc with h1 | ⟨h2, h3⟩
  · subst h1
    decide
  · rcases List.mem_map.mp h2 with ⟨d, hd, hdc⟩
    have hdk : isKeepChar d = true := List.of_mem_filter (mem_pyStrip hd)
    simp only [isKeepChar, isLowerAlpha, isUpperAlpha, isDigitChar, isPySpace,
      Bool.or_eq_true, Bool.and_eq_true, decide_eq_true_eq] at hdk
    rw [← hdc]
    rcases hdk with (((h4 | h4) | h4) | h4) | h4
    · rw [pyLowerChar_fix (by omega)]
      simp only [isSlugChar, isLowerAlpha, isDigitChar, Bool.or_eq_true,
        Bool.and_eq_true, decide_eq_true_eq]
      omega
    · have h5 : pyLowerChar d = Char.ofNat (d.toNat + 32) := by
        simp [pyLowerChar, h4]
      have h6 : (Char.ofNat (d.toNat + 32)).toNat = d.toNat + 32 :=
        toNat_ofNat_small (by omega)
      rw [h5]
      simp only [isSlugChar, isLowerAlpha, isDigitChar, Bool.or_eq_true,
        Bool.and_eq_true, decide_eq_true_eq, h6]
      omega
    · rw [pyLowerChar_fix (by omega)]
      simp only [isSlugChar, isLowerAlpha, isDigitChar, Bool.or_eq_true,
        Bool.and_eq_true, decide_eq_true_eq]
      omega
    · rw [pyLowerChar_fix (by omega)]
      simp only [isSlugChar, isLowerAlpha, isDigitChar, Bool.or_eq_true,
        Bool.and_eq_true, decide_eq_true_eq]
      omega
    · exfalso
      have hb : d.toNat ≤ 32 := by omega
      have h5 : pyLowerChar d = d := pyLowerChar_fix (by omega)
      rw [h5] at hdc
      rw [← hdc] at h3
      have h6 : isWsOrUnderscore d = true := by
        simp only [isWsOrUnderscore, isPySpace, Bool.or_eq_true, decide_eq_true_eq]
        omega
      rw [h6] at h3
      exact absurd h3 (by simp)

/-- Slug characters are ASCII. -/
theorem isSlugChar_lt {c : Char} (h : isSlugChar c = true) : c.toNat < 128 := by
  simp only [isSlugChar, isLowerAlpha, isDigitChar, Bool.or_eq_true, Bool.and_eq_true,
    decide_eq_true_eq] at h
  omega

/-- Slug characters survive the keep filter. -/
theorem isSlugChar_keep {c : Char} (h : isSlugChar c = true) : isKeepChar c = true := by
  simp only [isSlugChar, isLowerAlpha, isDigitChar, Bool.or_eq_true, Bool.and_eq_true,
    decide_eq_true_eq] at h
  simp only [isKeepChar, isLowerAlpha, isUpperAlpha, isDigitChar, isPySpace,
    Bool.or_eq_true, Bool.and_eq_true, decide_eq_true_eq]
  omega

/-- Slug characters are not whitespace. -/
theorem isSlugChar_not_space {c : Char} (h : isSlugChar c = true) : isPySpace c = false := by
  simp only [isSlugChar, isLowerAlpha, isDigitChar, Bool.or_eq_true, Bool.and_eq_true,
    decide_eq_true_eq] at h
  simp only [isPySpace, Bool.or_eq_false_iff, decide_eq_false_iff_not]
  omega

/-- Slug characters are neither whitespace nor underscore. -/
theorem isSlugChar_not_ws {c : Char} (h : isSlugChar c = true) :
    isWsOrUnderscore c = false := by
  simp only [isSlugChar, isLowerAlpha, isDigitChar, Bool.or_eq_true, Bool.and_eq_true,
    decide_eq_true_eq] at h
  simp only [isWsOrUnderscore, isPySpace, Bool.or_eq_false_iff, decide_eq_false_iff_not]
  omega

/-- Slug characters are already lowercase. -/
theorem isSlugChar_lower_fix {c : Char} (h : isSlugChar c = true) : pyLowerChar c = c := by
  simp only [isSlugChar, isLowerAlpha, isDigitChar, Bool.or_eq_true, Bool.and_eq_true,
    decide_eq_true_eq] at h
  exact pyLowerChar_fix (by omega)

/-- `flatMap nfkdAsciiChar` is the identity on ASCII lists. -/
theorem flatMap_nfkd_id : ∀ {l : List Char}, (∀ c ∈ l, c.toNat < 128) →
    l.flatMap nfkdAsciiChar = l
  | [], _ => rfl
  | c :: rest, h => by
    have hc : nfkdAsciiChar c = [c] := by
      simp [nfkdAsciiChar, h c (List.mem_cons_self c rest)]
    simp [List.flatMap_cons, hc,
      flatMap_nfkd_id (fun d hd => h d (List.mem_cons_of_mem c hd))]

/-- `map` with a pointwise-fixing function is the identity. -/
theorem map_eq_self_of {f : Char → Char} : ∀ {l : List Char}, (∀ c ∈ l, f c = c) →
    l.map f = l
  | [], _ => rfl
  | c :: rest, h => by
    simp [h c (List.mem_cons_self c rest),
      map_eq_self_of (fun d hd => h d (List.mem_cons_of_mem c hd))]

/-- The `slugify` pipeline is the identity on strings of slug characters. -/
theorem slugifyChars_of_slug {l : List Char} (h : ∀ c ∈ l, isSlugChar c = true) :
    slugifyChars l = l := by
  unfold slugifyChars
  rw [flatMap_nfkd_id (fun c hc => isSlugChar_lt (h c hc))]
  rw [List.filter_eq_self.mpr (fun c hc => isSlugChar_keep (h c hc))]
  rw [pyStrip_eq_self (fun c hc => isSlugChar_not_space (h c hc))]
  rw [map_eq_self_of (fun c hc => isSlugChar_lower_fix (h c hc))]
  exact collapseWs_id l (fun c hc => isSlugChar_not_ws (h c hc))

/-- C7: for every input string `x`, `slugify(slugify(x)) == slugify(x)`, and
`slugify(x)` contains only lowercase ASCII alphanumerics and hyphens (or is
empty). -/
theorem c7_slugify_idempotent_and_charset (s : String) :
    slugify (slugify s) = slugify s ∧ ∀ c ∈ (slugify s).data, isSlugChar c = true := by
  refine ⟨?_, fun c hc => slugifyChars_mem s.data c hc⟩
  have h : slugifyChars (slugifyChars s.data) = slugifyChars s.data :=
    slugifyChars_of_slug (fun c hc => slugifyChars_mem s.data c hc)
  unfold slugify
  exact congrArg String.mk h

end Pistlar

namespace Pistlar

/-- `pyOrStr` falls through to the default exactly when the option is not truthy. -/
theorem pyOrStr_of_not_truthy {o : Option String} {d : String}
    (h : truthyStr o = none) : pyOrStr o d = d := by
  cases o with
  | none => rfl
  | some s =>
    simp only [truthyStr] at h
    by_cases hs : s = ""
    · simp [pyOrStr, hs]
    · simp [hs] at h

/-- C1 counterexample: a `<script>` tag in a document body is NOT stripped
entirely from the rendered HTML output — the pipeline (`bleach.clean` with
`strip=False`) escapes it and shows it as text. -/
theorem c1_script_escaped_not_stripped :
    renderBody "<script>alert(1)</script>" = "&lt;script&gt;alert(1)&lt;/script&gt;" ∧
      renderBody "<script>alert(1)</script>" ≠ "" := by
  constructor
  · decide
  · decide

/-- C1 (amended): every tag the sanitizer emits (in the `strip=False`
configuration `_load` uses) has an allow-listed name and only allow-listed
attributes; markup outside the allow-list is escaped into visible text rather
than stripped. -/
theorem c1_amended_output_tags_allowed (toks : List HtmlTok) (closing : Bool)
    (name : String) (attrs : List (String × String))
    (h : HtmlTok.tag closing name attrs ∈ toks.flatMap (cleanTok false)) :
    ALLOWED_TAGS.contains name = true ∧
      ∀ kv ∈ attrs, (allowedAttrsFor name).contains kv.1 = true := by
  rcases List.mem_flatMap.mp h with ⟨t, ht, hmem⟩
  cases t with
  | text s => simp [cleanTok] at hmem
  | tag cl nm at2 =>
    by_cases hn : ALLOWED_TAGS.contains nm = true
    · simp only [cleanTok, hn, if_true, List.mem_singleton] at hmem
      injection hmem with h1 h2 h3
      subst h2
      subst h3
      refine ⟨hn, fun kv hkv => ?_⟩
      have h5 := List.of_mem_filter hkv
      simpa using h5
    · simp only [cleanTok] at hmem
      rw [if_neg hn] at hmem
      simp at hmem

/-- Witness for `c1_amended_output_tags_allowed`: the sanitizer keeps `<p>` and
drops its disallowed `id` attribute. -/
theorem c1_amended_output_tags_allowed_witness :
    (HtmlTok.tag false "p" [] ∈ [HtmlTok.tag false "p" [("id", "x")]].flatMap (cleanTok false)) ∧
      (ALLOWED_TAGS.contains "p" = true ∧
        ∀ kv ∈ ([] : List (String × String)), (allowedAttrsFor "p").contains kv.1 = true) :=
  ⟨by decide, c1_amended_output_tags_allowed [HtmlTok.tag false "p" [("id", "x")]]
    false "p" [] (by decide)⟩

/-- C2 counterexample: the file `2023-01-02-hello-world.md` with no front-matter
and body `"# Hi\n\nWorld."` does NOT yield slug `"hello-world"` (the date prefix
of the filename is not stripped when the slug is derived). -/
theorem c2_slug_counterexample :
    (parseDoc "2023-01-02-hello-world.md" "# Hi\n\nWorld." ⟨0, none⟩ "/assets").map
      Post.slug ≠ some "hello-world" := by decide

/-- C2 (amended): parsing `2023-01-02-hello-world.md` with no front-matter and
body `"# Hi\n\nWorld."` yields title `"2023-01-02-hello-world"`, slug
`"2023-01-02-hello-world"` (the slugified full filename stem), date
2023-01-02T12:00:00Z (epoch second 1672660800), and `summary_html` equal to the
first rendered paragraph `<p>World.</p>` of the sanitized body, for every
current time `now`. -/
theorem c2_amended_parse_scenario (now : PyDateTime) :
    parseDoc "2023-01-02-hello-world.md" "# Hi\n\nWorld." now "/assets" =
      some ⟨"2023-01-02-hello-world", "2023-01-02-hello-world", ⟨1672660800, some 0⟩,
        "<p>World.</p>", "<h1>Hi</h1>\n<p>World.</p>", none,
        "2023-01-02-hello-world.md"⟩ := by
  rfl

/-- C3 counterexample: the file `!!!.md` (derived title `"!!!"`, no metadata)
loads with slug equal to the empty string — the loader stores it without any
fallback token. -/
theorem c3_empty_slug_counterexample :
    (parseDoc "!!!.md" "" ⟨0, none⟩ "/assets").map Post.slug = some "" := by decide

/-- C3 (amended): when the metadata carries no truthy slug, the parser stores
`slugify(title)` unchanged — including the empty string.  No default token is
substituted in the loader (the `slugify(title) or "post"` fallback exists only
in the web layer's creation form, app.py line 160). -/
theorem c3_amended_slug_no_fallback (fpath raw : String) (now : PyDateTime)
    (pre : String) (p : Post)
    (hmeta : truthyStr ((fmParse raw).getD (Metadata.empty, raw)).1.slug = none)
    (hp : parseDoc fpath raw now pre = some p) :
    p.slug = slugify (pyOrStr ((fmParse raw).getD (Metadata.empty, raw)).1.title
      (splitextStem (pyBasename fpath))) := by
  unfold parseDoc at hp
  dsimp only at hp
  rw [Option.map_eq_some'] at hp
  obtain ⟨date, hdate, hpost⟩ := hp
  subst hpost
  exact pyOrStr_of_not_truthy hmeta

/-- Witness for `c3_amended_slug_no_fallback` at the `!!!.md` scenario. -/
theorem c3_amended_slug_no_fallback_witness :
    truthyStr ((fmParse "").getD (Metadata.empty, "")).1.slug = none ∧
      parseDoc "!!!.md" "" ⟨0, none⟩ "/assets" =
        some ⟨"!!!", "", ⟨0, some 0⟩, "", "", none, "!!!.md"⟩ ∧
      (⟨"!!!", "", ⟨0, some 0⟩, "", "", none, "!!!.md"⟩ : Post).slug =
        slugify (pyOrStr ((fmParse "").getD (Metadata.empty, "")).1.title
          (splitextStem (pyBasename "!!!.md"))) :=
  ⟨by decide, by decide,
    c3_amended_slug_no_fallback "!!!.md" "" ⟨0, none⟩ "/assets" _ (by decide) (by decide)⟩

/-- C6 (code bug): evaluation of the date normalizer.  The date-only TEXT
`"2024-03-05"` is accepted by `fromisoformat`, so it normalizes to MIDNIGHT UTC
(epoch 1709596800) — the noon regex branch is unreachable for any valid
`YYYY-MM-DD` string; text of that shape with an invalid calendar date, such as
`"2024-13-45"`, reaches the unguarded `datetime` constructor and raises
(`none`) instead of never raising; a date-only VALUE (a `datetime.date` object)
does get noon (epoch 1709640000). -/
theorem c6_date_normalizer_eval (now : PyDateTime) :
    toAwareUtc (.str "2024-03-05") now = some ⟨1709596800, some 0⟩ ∧
      toAwareUtc (.str "2024-13-45") now = none ∧
      toAwareUtc (.date 2024 3 5) now = some ⟨1709640000, some 0⟩ :=
  ⟨rfl, rfl, rfl⟩

end Pistlar

namespace Pistlar

/-! ### Digest shape lemmas -/

/-- The fixed-width hex rendering has exactly the requested number of digits. -/
theorem natToHexAux_length : ∀ (d n : Nat), (natToHexAux d n).length = d
  | 0, _ => rfl
  | d + 1, n => by simp [natToHexAux, natToHexAux_length d (n / 16)]

/-- A SHA-256 hexdigest always has 64 characters. -/
theorem sha256hex_length (s : String) : (sha256hex s).length = 64 := by
  show (String.mk (natToHexAux 64 (sha256Nat (strBytes s)))).length = 64
  simp [String.length, natToHexAux_length]

/-- A SHA-256 hexdigest is never the empty string. -/
theorem sha256hex_ne_empty (s : String) : sha256hex s ≠ "" := by
  intro h
  have h2 := sha256hex_length s
  rw [h] at h2
  simp [String.length] at h2

/-- A computed directory fingerprint is never the empty string. -/
theorem calcFingerprint_ne_empty (fs : List FileEntry) : calcFingerprint fs ≠ "" :=
  sha256hex_ne_empty _

/-- All eight output words of the block compression are below `M32`. -/
theorem compressBlock_lt (hs : Sha2State) (block : List Nat) :
    (compressBlock hs block).a < M32 ∧ (compressBlock hs block).b < M32 ∧
    (compressBlock hs block).c < M32 ∧ (compressBlock hs block).d < M32 ∧
    (compressBlock hs block).e < M32 ∧ (compressBlock hs block).f < M32 ∧
    (compressBlock hs block).g < M32 ∧ (compressBlock hs block).h < M32 := by
  have hM : 0 < M32 := by decide
  unfold compressBlock
  exact ⟨Nat.mod_lt _ hM, Nat.mod_lt _ hM, Nat.mod_lt _ hM, Nat.mod_lt _ hM,
    Nat.mod_lt _ hM, Nat.mod_lt _ hM, Nat.mod_lt _ hM, Nat.mod_lt _ hM⟩

/-- The compression fold keeps all state words below `M32`. -/
theorem foldl_compressBlock_lt : ∀ (blocks : List (List Nat)) (hs : Sha2State),
    (hs.a < M32 ∧ hs.b < M32 ∧ hs.c < M32 ∧ hs.d < M32 ∧
      hs.e < M32 ∧ hs.f < M32 ∧ hs.g < M32 ∧ hs.h < M32) →
    ((List.foldl compressBlock hs blocks).a < M32 ∧
      (List.foldl compressBlock hs blocks).b < M32 ∧
      (List.foldl compressBlock hs blocks).c < M32 ∧
      (List.foldl compressBlock hs blocks).d < M32 ∧
      (List.foldl compressBlock hs blocks).e < M32 ∧
      (List.foldl compressBlock hs blocks).f < M32 ∧
      (List.foldl compressBlock hs blocks).g < M32 ∧
      (List.foldl compressBlock hs blocks).h < M32)
  | [], _, h => h
  | b :: rest, hs, _ => by
    rw [List.foldl_cons]
    exact foldl_compressBlock_lt rest (compressBlock hs b) (compressBlock_lt hs b)

/-- The digest of a bounded state is below `2 ^ 256`. -/
theorem digestOfState_lt (t : Sha2State)
    (h : t.a < M32 ∧ t.b < M32 ∧ t.c < M32 ∧ t.d < M32 ∧
      t.e < M32 ∧ t.f < M32 ∧ t.g < M32 ∧ t.h < M32) :
    digestOfState t < 2 ^ 256 := by
  obtain ⟨h1, h2, h3, h4, h5, h6, h7, h8⟩ := h
  unfold digestOfState M32 at *
  omega

/-- A SHA-256 digest value is below `2 ^ 256`. -/
theorem sha256Nat_lt (msg : List Nat) : sha256Nat msg < 2 ^ 256 :=
  digestOfState_lt _
    (foldl_compressBlock_lt (chunks64 (sha256Pad msg)) sha256Init (by decide))

end Pistlar

namespace Pistlar

/-- C4: the store's invalidation operation — realized by resetting the cached
fingerprint to the empty string, as the edit route does after writing a
document — followed by a read performs a fresh full parse of every scanned
file, even when the directory fingerprint is unchanged (`hfp`) and the cache is
non-empty (`hne`): a computed fingerprint is a 64-character digest, so it never
equals the reset (empty) fingerprint and the cache-hit branch cannot fire. -/
theorem c4_invalidate_forces_fresh_parse (st : StoreState) (fs : List FileEntry)
    (now : PyDateTime) (pre : String) (posts : List Post)
    (_hfp : calcFingerprint fs = st.fingerprint) (_hne : st.posts ≠ [])
    (hparse : parseAll fs now pre = some posts) :
    loadStore (invalidate st) true fs now pre =
      .ok (⟨calcFingerprint fs, sortPostsDesc posts⟩, fs.length) := by
  unfold loadStore invalidate
  rw [if_neg]
  · simp only [if_true, hparse]
  · intro hcontra
    exact calcFingerprint_ne_empty fs hcontra.1

/-- Witness for `c4_invalidate_forces_fresh_parse`: a store whose fingerprint
matches the (empty) directory and whose cache holds one post. -/
theorem c4_invalidate_forces_fresh_parse_witness :
    calcFingerprint [] = (StoreState.mk (calcFingerprint [])
        [⟨"t", "t", ⟨0, some 0⟩, "", "", none, "x"⟩]).fingerprint ∧
      (StoreState.mk (calcFingerprint []) [⟨"t", "t", ⟨0, some 0⟩, "", "", none, "x"⟩]).posts ≠ [] ∧
      parseAll [] ⟨0, none⟩ "/assets" = some [] ∧
      loadStore (invalidate (StoreState.mk (calcFingerprint [])
          [⟨"t", "t", ⟨0, some 0⟩, "", "", none, "x"⟩])) true [] ⟨0, none⟩ "/assets" =
        .ok (⟨calcFingerprint [], sortPostsDesc ([] : List Post)⟩,
          List.length ([] : List FileEntry)) :=
  ⟨rfl, by simp, rfl,
    c4_invalidate_forces_fresh_parse (StoreState.mk (calcFingerprint [])
      [⟨"t", "t", ⟨0, some 0⟩, "", "", none, "x"⟩]) [] ⟨0, none⟩ "/assets" [] rfl
      (by simp) rfl⟩

/-- C5 (amended): the fingerprint is a fixed-length (64-character) digest and is
identical across two scans of an unchanged directory tree regardless of
enumeration order: any permutation of the accepted files (with their sizes and
integer mtimes) yields the same digest, so an unchanged state never changes the
fingerprint.  (The converse direction of the claim — a changed state always
changes the digest — fails; see the collision counterexample.) -/
theorem c5_amended_fingerprint_order_independent (fs1 fs2 : List FileEntry)
    (hperm : fs1.Perm fs2) :
    calcFingerprint fs1 = calcFingerprint fs2 ∧ (calcFingerprint fs1).length = 64 := by
  constructor
  · have h1 : List.insertionSort (· ≤ ·) (fs1.map fpRecord) =
        List.insertionSort (· ≤ ·) (fs2.map fpRecord) := by
      refine List.eq_of_perm_of_sorted ?_
        (List.sorted_insertionSort (· ≤ ·) (fs1.map fpRecord))
        (List.sorted_insertionSort (· ≤ ·) (fs2.map fpRecord))
      exact ((List.perm_insertionSort _ _).trans (hperm.map fpRecord)).trans
        (List.perm_insertionSort _ _).symm
    unfold calcFingerprint fpPreimage
    rw [h1]
  · exact sha256hex_length _

/-- Witness for `c5_amended_fingerprint_order_independent` at a two-element scan
in both enumeration orders. -/
theorem c5_amended_fingerprint_order_independent_witness :
    List.Perm [(⟨"a.md", 0, 1, some ""⟩ : FileEntry), ⟨"b.md", 2, 3, some ""⟩]
      [⟨"b.md", 2, 3, some ""⟩, ⟨"a.md", 0, 1, some ""⟩] ∧
    (calcFingerprint [⟨"a.md", 0, 1, some ""⟩, ⟨"b.md", 2, 3, some ""⟩] =
        calcFingerprint [⟨"b.md", 2, 3, some ""⟩, ⟨"a.md", 0, 1, some ""⟩] ∧
      (calcFingerprint [(⟨"a.md", 0, 1, some ""⟩ : FileEntry), ⟨"b.md", 2, 3, some ""⟩]).length = 64) :=
  ⟨List.Perm.swap _ _ _,
    c5_amended_fingerprint_order_independent _ _ (List.Perm.swap _ _ _)⟩

/-- C5 counterexample: the "changes if the state changes" direction fails — the
digest takes finitely many values while integer mtimes are unbounded, so by the
pigeonhole principle two directory states that differ in an accepted file's
modification time share the same fingerprint. -/
theorem c5_collision_counterexample :
    ∃ n m : Nat, n ≠ m ∧
      calcFingerprint (mtimeState n) = calcFingerprint (mtimeState m) := by
  have hfin : ∀ n : Nat, sha256Nat (strBytes (fpPreimage (mtimeState n))) < 2 ^ 256 :=
    fun _ => sha256Nat_lt _
  obtain ⟨n, m, hnm, heq⟩ := Finite.exists_ne_map_eq_of_infinite
    (fun n : Nat => (⟨sha256Nat (strBytes (fpPreimage (mtimeState n))), hfin n⟩ : Fin (2 ^ 256)))
  refine ⟨n, m, hnm, ?_⟩
  have h2 : sha256Nat (strBytes (fpPreimage (mtimeState n))) =
      sha256Nat (strBytes (fpPreimage (mtimeState m))) := congrArg Fin.val heq
  unfold calcFingerprint sha256hex
  rw [h2]

end Pistlar

namespace Pistlar

/-! ### Store reload lemmas -/

/-- An unreadable file makes the parse pass raise. -/
theorem parseAll_none_of_bad : ∀ {fs : List FileEntry} {now : PyDateTime} {pre : String},
    (∃ f ∈ fs, f.content = none) → parseAll fs now pre = none := by
  intro fs
  induction fs with
  | nil => intro now pre h; simp at h
  | cons f rest ih =>
    intro now pre h
    rcases h with ⟨g, hg, hnone⟩
    rw [List.mem_cons] at hg
    unfold parseAll
    rcases hg with rfl | hg
    · have hpo : parseOne now pre g = none := by simp [parseOne, hnone]
      rw [hpo]
    · have h2 : parseAll rest now pre = none := ih ⟨g, hg, hnone⟩
      cases hpo : parseOne now pre f with
      | none => rfl
      | some p => rw [h2]

/-- A successful parse pass yields one post per scanned file. -/
theorem parseAll_length : ∀ {fs : List FileEntry} {posts : List Post}
    {now : PyDateTime} {pre : String},
    parseAll fs now pre = some posts → posts.length = fs.length := by
  intro fs
  induction fs with
  | nil =>
    intro posts now pre h
    unfold parseAll at h
    simp only [Option.some.injEq] at h
    simp [← h]
  | cons f rest ih =>
    intro posts now pre h
    unfold parseAll at h
    cases hpo : parseOne now pre f with
    | none => rw [hpo] at h; simp at h
    | some p =>
      rw [hpo] at h
      cases hrest : parseAll rest now pre with
      | none => rw [hrest] at h; simp at h
      | some bs =>
        rw [hrest] at h
        simp only [Option.some.injEq] at h
        subst h
        have h3 : bs.length = rest.length := ih hrest
        simp [h3]

/-- Inversion for `Except.map` hitting `ok`. -/
theorem except_map_eq_ok {ε α β : Type} {f : α → β} {x : Except ε α} {b : β}
    (h : x.map f = .ok b) : ∃ a, x = .ok a ∧ f a = b := by
  cases x with
  | error e => simp [Except.map] at h
  | ok a =>
    simp only [Except.map, Except.ok.injEq] at h
    exact ⟨a, rfl, h⟩

/-- The cache-hit branch of `_load`: an unchanged fingerprint with a non-empty
cache returns immediately. -/
theorem loadStore_cache_hit {st : StoreState} {d : Bool} {fs : List FileEntry}
    {now : PyDateTime} {pre : String}
    (hfp : calcFingerprint fs = st.fingerprint) (hne : st.posts ≠ []) :
    loadStore st d fs now pre = .ok (st, 0) := by
  unfold loadStore
  rw [if_pos ⟨hfp, hne⟩]

/-- Inversion of a successful `_load`: the stored fingerprint is the directory's
current fingerprint, and an empty resulting cache pins down the state (and, when
the directory exists, forces an empty scan). -/
theorem loadStore_ok_inv {st st1 : StoreState} {d : Bool} {fs : List FileEntry}
    {now : PyDateTime} {pre : String} {k : Nat}
    (h : loadStore st d fs now pre = .ok (st1, k)) :
    st1.fingerprint = calcFingerprint fs ∧
      (st1.posts = [] → st1 = ⟨calcFingerprint fs, []⟩ ∧ (d = true → fs = [])) := by
  unfold loadStore at h
  by_cases hg : calcFingerprint fs = st.fingerprint ∧ st.posts ≠ []
  · rw [if_pos hg] at h
    simp only [Except.ok.injEq, Prod.mk.injEq] at h
    obtain ⟨h1, _⟩ := h
    subst h1
    exact ⟨hg.1.symm, fun hp => absurd hp hg.2⟩
  · rw [if_neg hg] at h
    cases d with
    | false =>
      simp only [Bool.false_eq_true, if_false, Except.ok.injEq, Prod.mk.injEq] at h
      obtain ⟨h1, _⟩ := h
      subst h1
      exact ⟨rfl, fun _ => ⟨rfl, fun hd => absurd hd (by simp)⟩⟩
    | true =>
      simp only [if_true] at h
      cases hpa : parseAll fs now pre with
      | none => rw [hpa] at h; simp at h
      | some posts =>
        rw [hpa] at h
        simp only [Except.ok.injEq, Prod.mk.injEq] at h
        obtain ⟨h1, _⟩ := h
        subst h1
        refine ⟨rfl, fun hp => ?_⟩
        have hperm : sortPostsDesc posts = [] := hp
        have hpl : posts = [] := by
          have hp2 : (sortPostsDesc posts).Perm posts :=
            List.perm_insertionSort dateDescBefore posts
          rw [hperm] at hp2
          exact (List.Perm.nil_eq hp2).symm
        have hfs : fs = [] := by
          have hl := parseAll_length hpa
          rw [hpl] at hl
          simpa using List.eq_nil_of_length_eq_zero hl.symm
        subst hpl
        exact ⟨rfl, fun _ => hfs⟩

/-- C8: a genuine I/O failure (an unreadable file) hit while a triggered reload
reads files is surfaced to the caller as the raised error, and the store's
cached fingerprint and cached collection both remain exactly at their
last-known-good values — the failed reload neither clears nor partially updates
them (`_load` only assigns the cache fields after the whole loop succeeds). -/
theorem c8_io_failure_surfaced_cache_intact (st : StoreState) (fs : List FileEntry)
    (now : PyDateTime) (pre : String)
    (hreload : calcFingerprint fs ≠ st.fingerprint ∨ st.posts = [])
    (hbad : ∃ f ∈ fs, f.content = none) :
    loadStore st true fs now pre = .error st := by
  have hguard : ¬(calcFingerprint fs = st.fingerprint ∧ st.posts ≠ []) := by
    rcases hreload with h | h
    · exact fun hc => h hc.1
    · exact fun hc => hc.2 h
  unfold loadStore
  rw [if_neg hguard]
  simp [parseAll_none_of_bad hbad]

/-- Witness for `c8_io_failure_surfaced_cache_intact`: an empty-cache store over
a single unreadable file. -/
theorem c8_io_failure_surfaced_cache_intact_witness :
    (calcFingerprint [(⟨"a.md", 0, 1, none⟩ : FileEntry)] ≠ (StoreState.mk "x" []).fingerprint ∨
        (StoreState.mk "x" []).posts = []) ∧
      (∃ f ∈ [(⟨"a.md", 0, 1, none⟩ : FileEntry)], f.content = none) ∧
      loadStore (StoreState.mk "x" []) true [⟨"a.md", 0, 1, none⟩] ⟨0, none⟩ "/assets" =
        .error (StoreState.mk "x" []) :=
  ⟨Or.inr rfl, ⟨⟨"a.md", 0, 1, none⟩, by simp, rfl⟩,
    c8_io_failure_surfaced_cache_intact (StoreState.mk "x" []) [⟨"a.md", 0, 1, none⟩]
      ⟨0, none⟩ "/assets" (Or.inr rfl) ⟨⟨"a.md", 0, 1, none⟩, by simp, rfl⟩⟩

/-- C9: (1) when the freshly computed fingerprint equals the cached one and the
cache is non-empty, both read operations return the cached, unmodified
collection and parse no file; (2) hence a second `all_posts()` with no
filesystem change after any successful call parses zero files — at most one
full parse pass serves both calls. -/
theorem c9_cache_hit_no_reparse :
    (∀ (st : StoreState) (d : Bool) (fs : List FileEntry) (now : PyDateTime)
        (pre slug : String),
        calcFingerprint fs = st.fingerprint → st.posts ≠ [] →
        allPosts st d fs now pre = .ok (st.posts, st, 0) ∧
          bySlug slug st d fs now pre =
            .ok (st.posts.find? (fun p => p.slug == slug), st, 0)) ∧
    (∀ (st st1 : StoreState) (d : Bool) (fs : List FileEntry) (now now2 : PyDateTime)
        (pre : String) (ps : List Post) (k : Nat),
        allPosts st d fs now pre = .ok (ps, st1, k) →
        allPosts st1 d fs now2 pre = .ok (st1.posts, st1, 0)) := by
  constructor
  · intro st d fs now pre slug hfp hne
    constructor
    · unfold allPosts
      rw [loadStore_cache_hit hfp hne]
      rfl
    · unfold bySlug
      rw [loadStore_cache_hit hfp hne]
      rfl
  · intro st st1 d fs now now2 pre ps k h
    have hload : loadStore st d fs now pre = .ok (st1, k) := by
      unfold allPosts at h
      obtain ⟨⟨st2, n⟩, hl, hf⟩ := except_map_eq_ok h
      simp only [Prod.mk.injEq] at hf
      obtain ⟨_, h2, h3⟩ := hf
      subst h2
      subst h3
      exact hl
    obtain ⟨hfp1, hempty⟩ := loadStore_ok_inv hload
    by_cases hp1 : st1.posts = []
    · obtain ⟨hst1, hdfs⟩ := hempty hp1
      have hguard : ¬(calcFingerprint fs = st1.fingerprint ∧ st1.posts ≠ []) :=
        fun hc => hc.2 hp1
      have hsecond : loadStore st1 d fs now2 pre = .ok (st1, 0) := by
        unfold loadStore
        rw [if_neg hguard]
        cases d with
        | false =>
          simp only [Bool.false_eq_true, if_false]
          rw [hst1]
        | true =>
          have hfs : fs = [] := hdfs rfl
          subst hfs
          simp only [if_true]
          have hpa : parseAll [] now2 pre = some [] := rfl
          rw [hpa, hst1]
          rfl
      unfold allPosts
      rw [hsecond]
      rfl
    · unfold allPosts
      rw [loadStore_cache_hit hfp1.symm hp1]
      rfl

/-- Witness for `c9_cache_hit_no_reparse`: a matching-fingerprint store with one
cached post over an empty directory, read twice. -/
theorem c9_cache_hit_no_reparse_witness :
    (calcFingerprint [] = (StoreState.mk (calcFingerprint [])
        [⟨"t", "t", ⟨0, some 0⟩, "", "", none, "x"⟩]).fingerprint ∧
      (StoreState.mk (calcFingerprint []) [⟨"t", "t", ⟨0, some 0⟩, "", "", none, "x"⟩]).posts ≠ [] ∧
      allPosts (StoreState.mk (calcFingerprint [])
          [⟨"t", "t", ⟨0, some 0⟩, "", "", none, "x"⟩]) true [] ⟨0, none⟩ "/assets" =
        .ok ((StoreState.mk (calcFingerprint [])
          [⟨"t", "t", ⟨0, some 0⟩, "", "", none, "x"⟩]).posts,
          StoreState.mk (calcFingerprint []) [⟨"t", "t", ⟨0, some 0⟩, "", "", none, "x"⟩], 0)) ∧
    allPosts (StoreState.mk (calcFingerprint []) [⟨"t", "t", ⟨0, some 0⟩, "", "", none, "x"⟩])
        true [] ⟨1, none⟩ "/assets" =
      .ok ((StoreState.mk (calcFingerprint [])
        [⟨"t", "t", ⟨0, some 0⟩, "", "", none, "x"⟩]).posts,
        StoreState.mk (calcFingerprint []) [⟨"t", "t", ⟨0, some 0⟩, "", "", none, "x"⟩], 0) := by
  refine ⟨⟨rfl, by simp, ?_⟩, ?_⟩
  · exact (c9_cache_hit_no_reparse.1 (StoreState.mk (calcFingerprint [])
      [⟨"t", "t", ⟨0, some 0⟩, "", "", none, "x"⟩]) true [] ⟨0, none⟩ "/assets" "t" rfl
      (by simp)).1
  · exact c9_cache_hit_no_reparse.2 (StoreState.mk (calcFingerprint [])
      [⟨"t", "t", ⟨0, some 0⟩, "", "", none, "x"⟩])
      (StoreState.mk (calcFingerprint []) [⟨"t", "t", ⟨0, some 0⟩, "", "", none, "x"⟩])
      true [] ⟨0, none⟩ ⟨1, none⟩ "/assets"
      (StoreState.mk (calcFingerprint []) [⟨"t", "t", ⟨0, some 0⟩, "", "", none, "x"⟩]).posts 0
      (c9_cache_hit_no_reparse.1 (StoreState.mk (calcFingerprint [])
        [⟨"t", "t", ⟨0, some 0⟩, "", "", none, "x"⟩]) true [] ⟨0, none⟩ "/assets" "t" rfl
        (by simp)).1

end Pistlar

namespace Pistlar

/-! ### Stability of the date-descending sort and `by_slug` on duplicates -/

/-- Inserting a post dated `d` prepends it to the date-`d` slice: every element
the insertion skips is strictly newer, hence not dated `d`. -/
theorem orderedInsert_filter_eq (p : Post) (d : Int) (hd : p.date.secs = d) :
    ∀ m : List Post, (List.orderedInsert dateDescBefore p m).filter
        (fun q => q.date.secs == d) =
      p :: m.filter (fun q => q.date.secs == d)
  | [] => by simp [List.filter_cons, hd]
  | b :: m' => by
    by_cases hr : dateDescBefore p b
    · rw [List.orderedInsert]
      rw [if_pos hr]
      simp [List.filter_cons, hd]
    · rw [List.orderedInsert]
      rw [if_neg hr]
      have hb : ¬(b.date.secs = d) := by
        unfold dateDescBefore at hr
        omega
      have hbeq : (b.date.secs == d) = false := by simp [hb]
      rw [List.filter_cons, List.filter_cons, hbeq]
      simp only [Bool.false_eq_true, if_false]
      exact orderedInsert_filter_eq p d hd m'

/-- Inserting a post not dated `d` leaves the date-`d` slice unchanged. -/
theorem orderedInsert_filter_ne (p : Post) (d : Int) (hd : ¬(p.date.secs = d)) :
    ∀ m : List Post, (List.orderedInsert dateDescBefore p m).filter
        (fun q => q.date.secs == d) =
      m.filter (fun q => q.date.secs == d)
  | [] => by simp [List.filter_cons, hd]
  | b :: m' => by
    by_cases hr : dateDescBefore p b
    · rw [List.orderedInsert]
      rw [if_pos hr]
      simp [List.filter_cons, hd]
    · rw [List.orderedInsert]
      rw [if_neg hr]
      rw [List.filter_cons, List.filter_cons]
      rw [orderedInsert_filter_ne p d hd m']

/-- Stability of the date-descending sort: for every date `d`, the posts dated
`d` appear in the sorted list exactly in their scan order (CPython's
`list.sort` stability). -/
theorem sortPostsDesc_filter_stable (d : Int) : ∀ posts : List Post,
    (sortPostsDesc posts).filter (fun q => q.date.secs == d) =
      posts.filter (fun q => q.date.secs == d)
  | [] => rfl
  | p :: rest => by
    show (List.orderedInsert dateDescBefore p
        (List.insertionSort dateDescBefore rest)).filter (fun q => q.date.secs == d) =
      (p :: rest).filter (fun q => q.date.secs == d)
    by_cases hd : p.date.secs = d
    · rw [orderedInsert_filter_eq p d hd]
      rw [show (List.insertionSort dateDescBefore rest).filter (fun q => q.date.secs == d) =
          rest.filter (fun q => q.date.secs == d) from sortPostsDesc_filter_stable d rest]
      simp [List.filter_cons, hd]
    · rw [orderedInsert_filter_ne p d hd]
      rw [show (List.insertionSort dateDescBefore rest).filter (fun q => q.date.secs == d) =
          rest.filter (fun q => q.date.secs == d) from sortPostsDesc_filter_stable d rest]
      simp [List.filter_cons, hd]

/-- `find?` with a conjunctive predicate is `find?` on the filtered list. -/
theorem find?_and_filter {α : Type} (pr q : α → Bool) : ∀ l : List α,
    l.find? (fun x => pr x && q x) = (l.filter q).find? pr
  | [] => rfl
  | a :: l' => by
    by_cases hq : q a
    · by_cases hp : pr a
      · simp [List.find?_cons, List.filter_cons, hq, hp]
      · simp [List.find?_cons, List.filter_cons, hq, hp, find?_and_filter pr q l']
    · simp [List.find?_cons, List.filter_cons, hq, find?_and_filter pr q l']

/-- Strengthening the predicate of a successful `find?` by a condition the found
element satisfies does not change the result. -/
theorem find?_and_self {α : Type} {pm q2 : α → Bool} {r : α} : ∀ {l : List α},
    l.find? pm = some r → q2 r = true → l.find? (fun x => pm x && q2 x) = some r := by
  intro l
  induction l with
  | nil => intro hf _; simp at hf
  | cons a l' ih =>
    intro hf hq
    by_cases hp : pm a = true
    · rw [List.find?_cons_of_pos l' hp] at hf
      simp only [Option.some.injEq] at hf
      subst hf
      exact List.find?_cons_of_pos l' (by simp [hp, hq])
    · rw [List.find?_cons_of_neg l' hp] at hf
      rw [List.find?_cons_of_neg l' (by simp [hp])]
      exact ih hf hq

/-- The first match in a date-descending sorted list has the newest date among
all matches. -/
theorem sorted_find?_max {l : List Post} {pm : Post → Bool} {r : Post}
    (hs : List.Sorted dateDescBefore l) (hf : l.find? pm = some r) :
    ∀ q ∈ l, pm q = true → q.date.secs ≤ r.date.secs := by
  induction l with
  | nil => simp at hf
  | cons a l' ih =>
    intro q hq hpm
    rw [List.mem_cons] at hq
    by_cases hp : pm a = true
    · rw [List.find?_cons_of_pos l' hp] at hf
      simp only [Option.some.injEq] at hf
      subst hf
      rcases hq with rfl | hq
      · exact le_refl _
      · exact List.rel_of_sorted_cons hs q hq
    · rw [List.find?_cons_of_neg l' hp] at hf
      rcases hq with rfl | hq
      · exact absurd hpm hp
      · exact ih hs.of_cons hf q hq hpm

/-- C10: when loaded documents share a slug, `by_slug` scans the cached
date-descending list (`sortPostsDesc` of the parse-order posts, as `_load`
stores it) and returns its first match `r` — a document with the requested
slug and the greatest date among all matches, ties resolved in favor of the
earliest post in scan order (the sort is stable) — rather than raising,
deduplicating, or signalling ambiguity. -/
theorem c10_by_slug_duplicates_newest_first (posts : List Post) (slug : String)
    (p : Post) (hp : p ∈ posts) (hslug : p.slug = slug) :
    ∃ r, (sortPostsDesc posts).find? (fun q => q.slug == slug) = some r ∧
      r.slug = slug ∧ r ∈ posts ∧
      (∀ q ∈ posts, q.slug = slug → q.date.secs ≤ r.date.secs) ∧
      posts.find? (fun q => q.slug == slug && q.date.secs == r.date.secs) = some r := by
  have hperm : (sortPostsDesc posts).Perm posts :=
    List.perm_insertionSort dateDescBefore posts
  have hpS : p ∈ sortPostsDesc posts := hperm.mem_iff.mpr hp
  have hex : ((sortPostsDesc posts).find? (fun q => q.slug == slug)).isSome := by
    rw [List.find?_isSome]
    exact ⟨p, hpS, by simp [hslug]⟩
  obtain ⟨r, hr⟩ := Option.isSome_iff_exists.mp hex
  have hrslug : r.slug = slug := by
    have h1 := List.find?_some hr
    simpa using h1
  have hrmem : r ∈ posts := hperm.mem_iff.mp (List.mem_of_find?_eq_some hr)
  have hsorted : List.Sorted dateDescBefore (sortPostsDesc posts) :=
    List.sorted_insertionSort dateDescBefore posts
  refine ⟨r, hr, hrslug, hrmem, ?_, ?_⟩
  · intro q hq hq2
    exact sorted_find?_max hsorted hr q (hperm.mem_iff.mpr hq) (by simp [hq2])
  · rw [find?_and_filter (fun q => q.slug == slug) (fun q => q.date.secs == r.date.secs)
      posts]
    rw [← sortPostsDesc_filter_stable r.date.secs posts]
    rw [← find?_and_filter (fun q => q.slug == slug)
      (fun q => q.date.secs == r.date.secs) (sortPostsDesc posts)]
    exact find?_and_self hr (by simp)

/-- Witness for `c10_by_slug_duplicates_newest_first`: two posts sharing slug
`"s"`, the later-scanned one newer. -/
theorem c10_by_slug_duplicates_newest_first_witness :
    ((⟨"a", "s", ⟨1, some 0⟩, "", "", none, "f1"⟩ : Post) ∈
        [(⟨"a", "s", ⟨1, some 0⟩, "", "", none, "f1"⟩ : Post),
          ⟨"b", "s", ⟨2, some 0⟩, "", "", none, "f2"⟩]) ∧
      (⟨"a", "s", ⟨1, some 0⟩, "", "", none, "f1"⟩ : Post).slug = "s" ∧
      (∃ r, (sortPostsDesc [(⟨"a", "s", ⟨1, some 0⟩, "", "", none, "f1"⟩ : Post),
            ⟨"b", "s", ⟨2, some 0⟩, "", "", none, "f2"⟩]).find?
            (fun q => q.slug == "s") = some r ∧
        r.slug = "s" ∧
        r ∈ [(⟨"a", "s", ⟨1, some 0⟩, "", "", none, "f1"⟩ : Post),
          ⟨"b", "s", ⟨2, some 0⟩, "", "", none, "f2"⟩] ∧
        (∀ q ∈ [(⟨"a", "s", ⟨1, some 0⟩, "", "", none, "f1"⟩ : Post),
            ⟨"b", "s", ⟨2, some 0⟩, "", "", none, "f2"⟩],
          q.slug = "s" → q.date.secs ≤ r.date.secs) ∧
        [(⟨"a", "s", ⟨1, some 0⟩, "", "", none, "f1"⟩ : Post),
            ⟨"b", "s", ⟨2, some 0⟩, "", "", none, "f2"⟩].find?
            (fun q => q.slug == "s" && q.date.secs == r.date.secs) = some r) :=
  ⟨by decide, rfl,
    c10_by_slug_duplicates_newest_first
      [(⟨"a", "s", ⟨1, some 0⟩, "", "", none, "f1"⟩ : Post),
        ⟨"b", "s", ⟨2, some 0⟩, "", "", none, "f2"⟩] "s"
      ⟨"a", "s", ⟨1, some 0⟩, "", "", none, "f1"⟩ (by decide) rfl⟩

end Pistlar

namespace Pistlar

set_option maxRecDepth 100000 in
/-- The SHA-256 model matches `hashlib.sha256` on the empty-string test
vector. -/
theorem sha256hex_empty_vector :
    sha256hex "" = "e3b0c44298fc1c149afbf4c8996fb92427ae41e4649b934ca495991b7852b855" := by
  decide

set_option maxRecDepth 100000 in
/-- The SHA-256 model matches `hashlib.sha256` on the `"abc"` test vector. -/
theorem sha256hex_abc_vector :
    sha256hex "abc" = "ba7816bf8f01cfea414140de5dae2223b00361a396177a9cb410ff61f20015ad" := by
  decide

end Pistlar
